import Mathlib

/-!
Shallow embedding of the receipt-understanding core of the
typeface-finance-app repository (the OCR/receipt service module:
`parseReceiptText`, `determineCategory`, `processReceipt`,
`calculateConfidence`, `categoryMappings`).

Modelling conventions:
* Raw text is a `String`; all scanning is done on its `List Char` data.
* The JavaScript regular expressions of the source are transcribed as
  deterministic recursive-descent matchers.  For each pattern the greedy
  quantifiers never need to backtrack into earlier atoms for the overall
  match result (the character classes of adjacent atoms are disjoint), so
  the deterministic matchers compute exactly the JS leftmost match.
* JS numbers are modelled as `ℚ`; `parseFloat` is modelled on the cleaned
  candidate strings (digits and dots only) exactly as JS parses them.
* The external collaborators (file system access and the Tesseract OCR
  call of `processReceipt`) are outside the core: `processReceipt` is
  modelled as the pure function of the already-extracted text, per the
  module boundary.  `new Date(dateStr)` validity (`!isNaN(...)`) is an
  opaque JS-runtime predicate; the pipeline is parameterised by an oracle
  `dateOk : String → Bool` standing for it, and a recovered date is
  represented by the matched source substring.
-/

namespace Receipt

/-- The JS `\s` character class (also used by `String.prototype.trim`). -/
def isJsSpace (c : Char) : Bool :=
  c.toNat == 32 || c.toNat == 9 || c.toNat == 10 || c.toNat == 13 ||
  c.toNat == 11 || c.toNat == 12 || c.toNat == 0xa0 || c.toNat == 0x1680 ||
  (decide (0x2000 ≤ c.toNat) && decide (c.toNat ≤ 0x200a)) ||
  c.toNat == 0x2028 || c.toNat == 0x2029 || c.toNat == 0x202f ||
  c.toNat == 0x205f || c.toNat == 0x3000 || c.toNat == 0xfeff

/-- JS `String.prototype.trim` on char lists. -/
def trimChars (cs : List Char) : List Char :=
  ((cs.dropWhile isJsSpace).reverse.dropWhile isJsSpace).reverse

/-- JS `String.prototype.trim`. -/
def jsTrim (s : String) : String := String.mk (trimChars s.data)

/-- JS `String.prototype.toLowerCase` (ASCII range, which covers the
keyword tables of the source). -/
def lowerS (s : String) : String := String.mk (s.data.map Char.toLower)

/-- JS `text.split('\n')`. -/
def splitLines : List Char → List (List Char)
  | [] => [[]]
  | '\n' :: rest => [] :: splitLines rest
  | c :: rest =>
    match splitLines rest with
    | [] => [[c]]
    | l :: ls => (c :: l) :: ls

/-- `text.split('\n').map(l => l.trim()).filter(l => l.length > 0)`
(line 327 of the receipt service). -/
def jsLines (text : String) : List String :=
  ((splitLines text.data).map (fun l => String.mk (trimChars l))).filter
    (fun l => l ≠ "")

/-- JS `haystack.includes(needle)` on char lists. -/
def occursIn (needle : List Char) : List Char → Bool
  | [] => needle.isEmpty
  | c :: rest => needle.isPrefixOf (c :: rest) || occursIn needle rest

/-- JS `s.includes(sub)`. -/
def containsStr (s sub : String) : Bool := occursIn sub.data s.data

/-- JS `items.join(sep)` / string syntheses of the source. -/
def joinSep (sep : String) : List String → String
  | [] => ""
  | [x] => x
  | x :: xs => x ++ sep ++ joinSep sep xs

/-- Numeric value of a digit string. -/
def digitsToNat (ds : List Char) : Nat :=
  ds.foldl (fun n c => n * 10 + (c.toNat - 48)) 0

/-- JS `parseFloat` restricted to the cleaned amount candidates (strings of
digits and dots): parses the leading `\d*(\.\d*)?` prefix, `NaN` (here
`none`) when that prefix is empty. -/
def jsParseFloat (cs : List Char) : Option ℚ :=
  let intPart := cs.takeWhile Char.isDigit
  let rest := cs.drop intPart.length
  match rest with
  | '.' :: rest2 =>
    let fracPart := rest2.takeWhile Char.isDigit
    if intPart.isEmpty && fracPart.isEmpty then none
    else some ((digitsToNat intPart : ℚ) +
      (digitsToNat fracPart : ℚ) / (10 : ℚ) ^ fracPart.length)
  | _ => if intPart.isEmpty then none else some (digitsToNat intPart)

/-- Case-insensitive literal: consumes `pat` (up to ASCII case) from the
front of the input, returning the rest. -/
def matchLitCI : List Char → List Char → Option (List Char)
  | [], cs => some cs
  | _ :: _, [] => none
  | p :: ps, c :: cs => if c.toLower == p.toLower then matchLitCI ps cs else none

/-- Case-sensitive literal prefix matcher. -/
def matchLitCS : List Char → List Char → Option (List Char)
  | [], cs => some cs
  | _ :: _, [] => none
  | p :: ps, c :: cs => if c == p then matchLitCS ps cs else none

/-- The currency marker `(?:rs\.?|₹)` under the `i` flag. -/
def matchCurrencyI (cs : List Char) : Option (List Char) :=
  match matchLitCI ['r', 's'] cs with
  | some rest =>
    match rest with
    | '.' :: rest2 => some rest2
    | _ => some rest
  | none =>
    match cs with
    | c :: rest => if c == '₹' then some rest else none
    | _ => none

/-- The currency marker `(?:rs\.?|₹)` without the `i` flag (patterns 2 and
3 of `amountPatterns` are case-sensitive). -/
def matchCurrencyCS (cs : List Char) : Option (List Char) :=
  match matchLitCS ['r', 's'] cs with
  | some rest =>
    match rest with
    | '.' :: rest2 => some rest2
    | _ => some rest
  | none =>
    match cs with
    | c :: rest => if c == '₹' then some rest else none
    | _ => none

/-- The greedy `(?:,\d+)*` tail of the numeric token: returns the consumed
characters and the rest.  Every iteration consumes at least two
characters, so fuel equal to the input length is never exhausted. -/
def matchCommaGroupsF : Nat → List Char → List Char × List Char
  | 0, cs => ([], cs)
  | fuel + 1, ',' :: rest =>
    let ds := rest.takeWhile Char.isDigit
    if ds.isEmpty then ([], ',' :: rest)
    else
      let (more, rest2) := matchCommaGroupsF fuel (rest.drop ds.length)
      (',' :: (ds ++ more), rest2)
  | _ + 1, cs => ([], cs)

/-- The greedy `(?:,\d+)*` tail of the numeric token. -/
def matchCommaGroups (cs : List Char) : List Char × List Char :=
  matchCommaGroupsF cs.length cs

/-- The numeric token `\d+(?:,\d+)*(?:\.\d{2})?` of `amountPatterns`:
returns the matched characters and the rest, or `none`. -/
def matchNumToken (cs : List Char) : Option (List Char × List Char) :=
  let ds := cs.takeWhile Char.isDigit
  if ds.isEmpty then none
  else
    let rest := cs.drop ds.length
    let (groups, rest2) := matchCommaGroups rest
    match rest2 with
    | '.' :: d1 :: d2 :: rest3 =>
      if d1.isDigit && d2.isDigit then some (ds ++ groups ++ ['.', d1, d2], rest3)
      else some (ds ++ groups, rest2)
    | _ => some (ds ++ groups, rest2)

/-- The keyword alternation of amount pattern 1
(`total|amount|grand total|net amount|payable`).  The alternatives start
with pairwise distinct letters, so at most one can apply at a position. -/
def amountKeywords : List (List Char) :=
  ["total".data, "amount".data, "grand total".data, "net amount".data,
   "payable".data]

/-- Attempt of the first alternative of the keyword list that applies. -/
def matchKeyword (cs : List Char) : Option (List Char) :=
  amountKeywords.findSome? fun k => matchLitCI k cs

/-- Amount pattern 1 at one position:
`(?:total|amount|grand total|net amount|payable)[:\s]*(?:rs\.?|₹)?\s*(\d+(?:,\d+)*(?:\.\d{2})?)`
with the `i` flag; returns the capture group (the numeric token). -/
def t1At (cs : List Char) : Option (List Char) :=
  match matchKeyword cs with
  | none => none
  | some r1 =>
    let r2 := r1.dropWhile fun c => c == ':' || isJsSpace c
    let r3 := match matchCurrencyI r2 with | some r => r | none => r2
    let r4 := r3.dropWhile isJsSpace
    match matchNumToken r4 with
    | none => none
    | some (num, _) => some num

/-- Amount pattern 2 at one position:
`(?:rs\.?|₹)\s*(\d+(?:,\d+)*(?:\.\d{2})?)` with the `g` flag (and no `i`
flag); returns the full match text and the rest of the input. -/
def t2At (cs : List Char) : Option (List Char × List Char) :=
  match matchCurrencyCS cs with
  | none => none
  | some r1 =>
    let r2 := r1.dropWhile isJsSpace
    match matchNumToken r2 with
    | none => none
    | some (_, r3) => some (cs.take (cs.length - r3.length), r3)

/-- Amount pattern 3 at one position:
`(\d+(?:,\d+)*(?:\.\d{2})?)\s*(?:rs\.?|₹)` with the `g` flag (no `i`);
returns the full match text and the rest of the input. -/
def t3At (cs : List Char) : Option (List Char × List Char) :=
  match matchNumToken cs with
  | none => none
  | some (_, r1) =>
    let r2 := r1.dropWhile isJsSpace
    match matchCurrencyCS r2 with
    | none => none
    | some r3 => some (cs.take (cs.length - r3.length), r3)

/-- Amount pattern 4 at one position: `total[:\s]+(\d+(?:,\d+)*(?:\.\d{2})?)`
with the `i` flag; returns the capture group. -/
def t4At (cs : List Char) : Option (List Char) :=
  match matchLitCI "total".data cs with
  | none => none
  | some r1 =>
    let sep := r1.takeWhile fun c => c == ':' || isJsSpace c
    if sep.isEmpty then none
    else
      match matchNumToken (r1.drop sep.length) with
      | none => none
      | some (num, _) => some num

/-- Leftmost match of a non-global pattern: JS `text.match(re)` tries every
start position from the left and keeps the first success. -/
def scanFirst (tryAt : List Char → Option (List Char)) :
    List Char → Option (List Char)
  | [] => none
  | c :: rest =>
    match tryAt (c :: rest) with
    | some r => some r
    | none => scanFirst tryAt rest

/-- All matches of a global pattern, left to right, resuming after each
match (JS `text.match(/…/g)`).  Every match consumes at least one
character, so fuel equal to the input length suffices. -/
def scanAll (tryAt : List Char → Option (List Char × List Char)) :
    Nat → List Char → List (List Char)
  | 0, _ => []
  | _, [] => []
  | fuel + 1, c :: rest =>
    match tryAt (c :: rest) with
    | some (m, after) => m :: scanAll tryAt fuel after
    | none => scanAll tryAt fuel rest

/-- JS `matches[1] || matches[0]` applied to the match array of a global
pattern: the *second* match when there are at least two, else the first. -/
def secondOrFirst : List (List Char) → Option (List Char)
  | [] => none
  | [m] => some m
  | _ :: m2 :: _ => some m2

/-- Lines 354–357 of the source:
`extractedAmount.replace(/[^\d.,]/g, '').replace(/,/g, '')`. -/
def cleanAmount (raw : List Char) : List Char :=
  (raw.filter fun c => c.isDigit || c == '.' || c == ',').filter
    fun c => !(c == ',')

/-- Lines 354–360: clean the candidate, parse it, and accept it only when
`numAmount && numAmount > 0 && numAmount < 100000`. -/
def acceptAmount (raw : List Char) : Option ℚ :=
  match jsParseFloat (cleanAmount raw) with
  | none => none
  | some q => if q ≠ 0 ∧ 0 < q ∧ q < 100000 then some q else none

/-- One iteration of the amount loop for a candidate raw match text. -/
def tierAccept (raw : Option (List Char)) : Option ℚ := raw.bind acceptAmount

/-- The amount extractor (lines 335–362): try the four patterns in order;
a pattern that matches but whose value is rejected falls through to the
next pattern; the first accepted value wins. -/
def extractAmount (text : String) : Option ℚ :=
  let cs := text.data
  match tierAccept (scanFirst t1At cs) with
  | some q => some q
  | none =>
    match tierAccept (secondOrFirst (scanAll t2At cs.length cs)) with
    | some q => some q
    | none =>
      match tierAccept (secondOrFirst (scanAll t3At cs.length cs)) with
      | some q => some q
      | none => tierAccept (scanFirst t4At cs)

/-! ### Date extractor (lines 343–375) -/

/-- Candidate consumptions of `\d{1,2}` in JS backtracking order: the
greedy two-digit consumption first, then one digit. -/
def digits12 : List Char → List (List Char × List Char)
  | d1 :: d2 :: rest =>
    if d1.isDigit then
      if d2.isDigit then [([d1, d2], rest), ([d1], d2 :: rest)]
      else [([d1], d2 :: rest)]
    else []
  | [d1] => if d1.isDigit then [([d1], [])] else []
  | [] => []

/-- Greedy `\d{2,4}`: up to four leading digits, at least two. -/
def digits24 (cs : List Char) : Option (List Char) :=
  let ds := (cs.takeWhile Char.isDigit).take 4
  if 2 ≤ ds.length then some ds else none

/-- Date pattern 1 at one position: `(\d{1,2}[-\/]\d{1,2}[-\/]\d{2,4})`,
with the JS backtracking order over the two `\d{1,2}` atoms. -/
def numericDateAt (cs : List Char) : Option (List Char) :=
  (digits12 cs).findSome? fun (a, r1) =>
    match r1 with
    | sep1 :: r2 =>
      if sep1 == '-' || sep1 == '/' then
        (digits12 r2).findSome? fun (b, r3) =>
          match r3 with
          | sep2 :: r4 =>
            if sep2 == '-' || sep2 == '/' then
              match digits24 r4 with
              | some y => some (a ++ [sep1] ++ b ++ [sep2] ++ y)
              | none => none
            else none
          | [] => none
      else none
    | [] => none

/-- The month alternation of date pattern 2 (`i` flag). -/
def monthNames : List (List Char) :=
  ["jan".data, "feb".data, "mar".data, "apr".data, "may".data, "jun".data,
   "jul".data, "aug".data, "sep".data, "oct".data, "nov".data, "dec".data]

/-- Date pattern 2 at one position:
`(\d{1,2}\s+(?:jan|…|dec)\s+\d{2,4})` with the `i` flag; the capture keeps
the original character case of the text. -/
def monthDateAt (cs : List Char) : Option (List Char) :=
  (digits12 cs).findSome? fun (a, r1) =>
    let sp1 := r1.takeWhile isJsSpace
    if sp1.isEmpty then none
    else
      let r2 := r1.drop sp1.length
      match monthNames.findSome?
          (fun m => (matchLitCI m r2).map fun rest => (r2.take m.length, rest)) with
      | none => none
      | some (mchars, r3) =>
        let sp2 := r3.takeWhile isJsSpace
        if sp2.isEmpty then none
        else
          match digits24 (r3.drop sp2.length) with
          | some y => some (a ++ sp1 ++ mchars ++ sp2 ++ y)
          | none => none

/-- Date pattern 3 at one position:
`(?:date|dt)[:\s]*(\d{1,2}[-\/]\d{1,2}[-\/]\d{2,4})` with the `i` flag;
returns the capture group. -/
def labeledDateAt (cs : List Char) : Option (List Char) :=
  match (matchLitCI "date".data cs).orElse (fun _ => matchLitCI "dt".data cs) with
  | none => none
  | some r1 => numericDateAt (r1.dropWhile fun c => c == ':' || isJsSpace c)

/-- Lines 366–374: the first match of a date pattern is kept only when
`new Date(dateStr)` is valid; that JS-runtime check is the `dateOk`
oracle, and the recovered date is represented by its source substring. -/
def dateAccept (dateOk : String → Bool) (raw : Option (List Char)) :
    Option String :=
  match raw with
  | none => none
  | some d => if dateOk (String.mk d) then some (String.mk d) else none

/-- The date extractor (lines 364–375): three pattern tiers in order; a
tier whose first match fails the validity check falls through to the next
tier. -/
def extractDate (dateOk : String → Bool) (text : String) : Option String :=
  let cs := text.data
  match dateAccept dateOk (scanFirst numericDateAt cs) with
  | some s => some s
  | none =>
    match dateAccept dateOk (scanFirst monthDateAt cs) with
    | some s => some s
    | none => dateAccept dateOk (scanFirst labeledDateAt cs)

/-! ### Merchant extractor (lines 377–387) -/

/-- The filter of lines 380–383: length strictly between 3 and 50, no
digit (`!line.match(/\d+/)`), and neither "receipt" nor "bill"
(case-insensitive) as a substring. -/
def merchantLineOk (line : String) : Bool :=
  decide (3 < line.length) && decide (line.length < 50) &&
  !(line.data.any Char.isDigit) &&
  !(containsStr (lowerS line) "receipt") &&
  !(containsStr (lowerS line) "bill")

/-- The merchant extractor: the first qualifying line among the first five
non-empty trimmed lines. -/
def extractMerchant (lines : List String) : Option String :=
  (lines.take 5).find? merchantLineOk

/-! ### Item extractor (lines 389–397) -/

/-- The simple numeric token `\d+(?:\.\d{2})?` of the item-line test;
returns the rest of the input on success. -/
def matchNumSimple (cs : List Char) : Option (List Char) :=
  let ds := cs.takeWhile Char.isDigit
  if ds.isEmpty then none
  else
    let rest := cs.drop ds.length
    match rest with
    | '.' :: d1 :: d2 :: r =>
      if d1.isDigit && d2.isDigit then some r else some rest
    | _ => some rest

/-- The item-line test
`(\d+(?:\.\d{2})?)\s*(?:rs\.?|₹)|(?:rs\.?|₹)\s*(\d+(?:\.\d{2})?)` (`i`
flag) at one position. -/
def itemAt (cs : List Char) : Bool :=
  (match matchNumSimple cs with
   | some r1 => (matchCurrencyI (r1.dropWhile isJsSpace)).isSome
   | none => false) ||
  (match matchCurrencyI cs with
   | some r1 => (matchNumSimple (r1.dropWhile isJsSpace)).isSome
   | none => false)

/-- Whether the item-line test matches anywhere in the line. -/
def itemLineTest (line : String) : Bool := scanBool line.data
where
  scanBool : List Char → Bool
    | [] => false
    | c :: rest => itemAt (c :: rest) || scanBool rest

/-- The character class `[\d\s₹rs\.-]` with the `i` flag of line 392: the
characters deleted from an item line. -/
def isItemStripChar (c : Char) : Bool :=
  c.isDigit || isJsSpace c || c == '₹' || c.toLower == 'r' ||
  c.toLower == 's' || c == '.' || c == '-'

/-- The item extractor (lines 390–397): every line passing the price test
contributes its stripped text when more than 2 characters survive. -/
def extractItems (lines : List String) : List String :=
  lines.filterMap fun line =>
    if itemLineTest line then
      let itemName := jsTrim (String.mk (line.data.filter fun c => !(isItemStripChar c)))
      if 2 < itemName.length then some itemName else none
    else none

/-! ### Categorizer (lines 277–303 and 409–421) -/

/-- The `categoryMappings` table, in declaration order. -/
def categoryMappings : List (String × List String) :=
  [("Food & Dining",
    ["restaurant", "cafe", "food", "pizza", "burger", "hotel", "dhaba",
     "canteen", "mcdonald", "kfc", "dominos", "pizza hut", "subway",
     "cafe coffee day", "starbucks", "chai", "tea", "swiggy", "zomato",
     "uber eats"]),
   ("Transportation",
    ["uber", "ola", "taxi", "auto", "bus", "metro", "railway", "petrol",
     "diesel", "fuel", "gas", "station", "transport", "parking", "toll",
     "rapido"]),
   ("Shopping",
    ["mall", "store", "shop", "market", "bazaar", "amazon", "flipkart",
     "myntra", "clothing", "fashion", "shoes", "electronics", "mobile",
     "laptop"]),
   ("Healthcare",
    ["hospital", "clinic", "doctor", "medical", "pharmacy", "medicine",
     "health", "apollo", "fortis", "max", "aiims", "dental"]),
   ("Utilities",
    ["electricity", "water", "gas", "internet", "wifi", "mobile", "phone",
     "broadband", "cable", "dish", "airtel", "jio", "vodafone", "bsnl"]),
   ("Entertainment",
    ["movie", "cinema", "theatre", "pvr", "inox", "game", "park", "mall",
     "netflix", "amazon prime", "hotstar", "spotify", "youtube"])]

/-- The double loop of `determineCategory`: first category one of whose
keywords occurs in the search string, else the "Others" fallback. -/
def findCategory : List (String × List String) → String → String
  | [], _ => "Others"
  | (category, keywords) :: rest, searchText =>
    if keywords.any (fun k => containsStr searchText (lowerS k)) then category
    else findCategory rest searchText

/-- `determineCategory(merchant, items)` (lines 409–421): the search
string is `` `${merchant} ${items.join(' ')}`.toLowerCase() ``. -/
def determineCategory (merchant : String) (items : List String) : String :=
  findCategory categoryMappings (lowerS (merchant ++ " " ++ joinSep " " items))

/-! ### Confidence scorer (lines 483–492) and orchestrator (lines 424–480) -/

/-- The result of `parseReceiptText` (lines 399–405). -/
structure Parsed where
  amount : Option ℚ
  merchant : Option String
  date : Option String
  items : List String
  rawText : String
deriving Repr, DecidableEq

/-- `parseReceiptText(text)` (lines 326–406). -/
def parseReceiptText (dateOk : String → Bool) (text : String) : Parsed :=
  { amount := extractAmount text
    merchant := extractMerchant (jsLines text)
    date := extractDate dateOk text
    items := extractItems (jsLines text)
    rawText := text }

/-- JS truthiness of the optional amount (`if (parsed.amount)`): a number
is falsy exactly when it is `0` (`NaN` is already `none` here). -/
def truthyQ : Option ℚ → Bool
  | none => false
  | some q => if q = 0 then false else true

/-- JS truthiness of the optional merchant (`if (parsed.merchant)`): a
string is falsy exactly when it is empty. -/
def truthyS : Option String → Bool
  | none => false
  | some s => if s = "" then false else true

/-- `calculateConfidence(parsed)` (lines 483–492).  A recovered `Date`
object is always truthy, so the date test is `isSome`. -/
def calculateConfidence (p : Parsed) : Nat :=
  let s1 := if truthyQ p.amount then 40 else 0
  let s2 := s1 + (if truthyS p.merchant then 30 else 0)
  let s3 := s2 + (if p.date.isSome then 20 else 0)
  let s4 := s3 + (if p.items.length > 0 then 10 else 0)
  min s4 100

/-- The failure taxonomy of the orchestrator: `EmptyInput` for
'No text could be extracted from the image', `AmountNotFound` for
'Could not extract amount from receipt'. -/
inductive FailureReason
  | emptyInput
  | amountNotFound
deriving Repr, DecidableEq

/-- The date of a Success: `parsed.date || new Date()` (line 461). -/
inductive ReceiptDate
  | extracted (s : String)
  | now
deriving Repr, DecidableEq

/-- The `data` record of a successful `processReceipt` (lines 457–465). -/
structure SuccessData where
  amount : ℚ
  category : String
  description : String
  date : ReceiptDate
  merchant : Option String
  items : List String
  confidence : Nat
deriving Repr, DecidableEq

/-- The orchestrator's outcome: exactly one of Success or Failure. -/
inductive ParseResult
  | success (data : SuccessData)
  | failure (reason : FailureReason)
deriving Repr, DecidableEq

/-- The description synthesis of lines 446–453 and 460, including the
final `description || 'Receipt purchase'` fallback. -/
def buildDescription (merchant : Option String) (items : List String) : String :=
  let base := if truthyS merchant then "Purchase at " ++ merchant.getD "" else ""
  let withItems :=
    if items.length > 0 then base ++ " - " ++ joinSep ", " (items.take 3)
    else base
  if withItems = "" then "Receipt purchase" else withItems

/-- Assembly of the Success record (lines 455–465). -/
def assembleSuccess (parsed : Parsed) (amt : ℚ) : SuccessData :=
  { amount := amt
    category := determineCategory (parsed.merchant.getD "") parsed.items
    description := buildDescription parsed.merchant parsed.items
    date := match parsed.date with
      | some s => ReceiptDate.extracted s
      | none => ReceiptDate.now
    merchant := parsed.merchant
    items := parsed.items
    confidence := calculateConfidence parsed }

/-- `processReceipt` (lines 424–480), downstream of the external OCR
collaborator: its argument is the already-extracted text (spec entry point
`parseReceipt(rawText)`).  The guard of line 432 rejects empty or
whitespace-only text; the guard of line 439 (`if (!parsed.amount)`)
rejects a falsy amount, i.e. a missing or zero amount. -/
def processReceipt (dateOk : String → Bool) (extractedText : String) :
    ParseResult :=
  if jsTrim extractedText = "" then .failure .emptyInput
  else
    let parsed := parseReceiptText dateOk extractedText
    match parsed.amount with
    | none => .failure .amountNotFound
    | some amt =>
      if amt = 0 then .failure .amountNotFound
      else .success (assembleSuccess parsed amt)

/-- The flattened `(category, keyword)` table in declaration order. -/
def catFlat : List (String × List String) → List (String × String)
  | [] => []
  | (c, kws) :: rest => (kws.map fun k => (c, k)) ++ catFlat rest

/-- Modelled from the spec's words for the refinement claim about the
tie-break: the category of the first `(category, keyword)` pair, in the
fixed declaration order of the flattened table, whose keyword occurs in
the search string; "Others" when none does. -/
def firstMatchCategory (searchText : String) : String :=
  match (catFlat categoryMappings).find?
      (fun p => containsStr searchText (lowerS p.2)) with
  | some p => p.1
  | none => "Others"

/-! ## Helper lemmas -/

theorem string_data_inj {s t : String} (h : s.data = t.data) : s = t := by
  cases s
  cases t
  exact congrArg String.mk h

theorem string_length_zero {s : String} (h : s.length = 0) : s = "" :=
  string_data_inj (List.eq_nil_of_length_eq_zero h)

theorem string_append_eq_empty_iff (s t : String) :
    s ++ t = "" ↔ s = "" ∧ t = "" := by
  constructor
  · intro h
    have h1 := congrArg String.length h
    rw [String.length_append] at h1
    have h0 : ("" : String).length = 0 := rfl
    rw [h0] at h1
    exact ⟨string_length_zero (by omega), string_length_zero (by omega)⟩
  · rintro ⟨rfl, rfl⟩
    rfl

theorem parsed_amount (dateOk : String → Bool) (text : String) :
    (parseReceiptText dateOk text).amount = extractAmount text := rfl

theorem parsed_merchant (dateOk : String → Bool) (text : String) :
    (parseReceiptText dateOk text).merchant = extractMerchant (jsLines text) := rfl

theorem parsed_items (dateOk : String → Bool) (text : String) :
    (parseReceiptText dateOk text).items = extractItems (jsLines text) := rfl

/-- An accepted candidate passed the range check of line 357. -/
theorem acceptAmount_spec {raw : List Char} {q : ℚ}
    (h : acceptAmount raw = some q) : q ≠ 0 ∧ 0 < q ∧ q < 100000 := by
  unfold acceptAmount at h
  split at h
  next => exact absurd h (by simp)
  next q' hp =>
    split at h
    next hc =>
      obtain rfl := Option.some.inj h
      exact hc
    next => exact absurd h (by simp)

theorem tierAccept_spec {raw : Option (List Char)} {q : ℚ}
    (h : tierAccept raw = some q) : q ≠ 0 ∧ 0 < q ∧ q < 100000 := by
  cases raw with
  | none => exact absurd h (by simp [tierAccept])
  | some r => exact acceptAmount_spec (by simpa [tierAccept] using h)

/-- Every amount the extractor returns is nonzero, positive, and below the
100000 sanity bound. -/
theorem extractAmount_spec {text : String} {q : ℚ}
    (h : extractAmount text = some q) : q ≠ 0 ∧ 0 < q ∧ q < 100000 := by
  simp only [extractAmount] at h
  split at h
  next heq => exact tierAccept_spec (heq.trans h)
  next =>
    split at h
    next heq => exact tierAccept_spec (heq.trans h)
    next =>
      split at h
      next heq => exact tierAccept_spec (heq.trans h)
      next => exact tierAccept_spec h

/-- Every merchant the extractor returns satisfies the length filter, so
in particular it is not the empty string. -/
theorem extractMerchant_spec {lines : List String} {m : String}
    (h : extractMerchant lines = some m) : 3 < m.length ∧ m ≠ "" := by
  have hp := List.find?_some h
  simp only [merchantLineOk, Bool.and_eq_true, decide_eq_true_eq] at hp
  refine ⟨hp.1.1.1.1, fun he => ?_⟩
  rw [he] at hp
  exact absurd hp.1.1.1.1 (by decide)

theorem mem_trimChars {c : Char} {cs : List Char} (h : c ∈ trimChars cs) :
    c ∈ cs := by
  unfold trimChars at h
  rw [List.mem_reverse] at h
  have h2 := (List.dropWhile_sublist _).subset h
  rw [List.mem_reverse] at h2
  exact (List.dropWhile_sublist _).subset h2

/-- `processReceipt` unfolded over the extracted amount. -/
theorem processReceipt_eq (dateOk : String → Bool) (text : String) :
    processReceipt dateOk text =
      if jsTrim text = "" then .failure .emptyInput
      else
        match extractAmount text with
        | none => .failure .amountNotFound
        | some amt =>
          if amt = 0 then .failure .amountNotFound
          else .success (assembleSuccess (parseReceiptText dateOk text) amt) := rfl

theorem processReceipt_empty (dateOk : String → Bool) {text : String}
    (htrim : jsTrim text = "") :
    processReceipt dateOk text = .failure .emptyInput := by
  rw [processReceipt_eq, if_pos htrim]

theorem processReceipt_noAmount (dateOk : String → Bool) {text : String}
    (htrim : jsTrim text ≠ "") (hamt : extractAmount text = none) :
    processReceipt dateOk text = .failure .amountNotFound := by
  rw [processReceipt_eq, if_neg htrim, hamt]

theorem processReceipt_someAmount (dateOk : String → Bool) {text : String}
    {amt : ℚ} (htrim : jsTrim text ≠ "") (hamt : extractAmount text = some amt)
    (hz : amt ≠ 0) :
    processReceipt dateOk text =
      .success (assembleSuccess (parseReceiptText dateOk text) amt) := by
  rw [processReceipt_eq, if_neg htrim, hamt]
  exact if_neg hz

/-- Inversion of a successful run of the orchestrator. -/
theorem processReceipt_success_eq {dateOk : String → Bool} {text : String}
    {d : SuccessData} (h : processReceipt dateOk text = .success d) :
    jsTrim text ≠ "" ∧ ∃ amt, extractAmount text = some amt ∧ amt ≠ 0 ∧
      d = assembleSuccess (parseReceiptText dateOk text) amt := by
  rw [processReceipt_eq] at h
  split at h
  next => exact absurd h (by simp)
  next htrim =>
    refine ⟨htrim, ?_⟩
    split at h
    next => exact absurd h (by simp)
    next amt hamt =>
      split at h
      next => exact absurd h (by simp)
      next hz =>
        injection h with h
        exact ⟨amt, hamt, hz, h.symm⟩

/-! ## Claim theorems -/

/-- C1: `processReceipt` fails with `EmptyInput` iff the text trims to
empty, fails with `AmountNotFound` iff the text is non-empty after
trimming and the amount extractor yields no accepted amount, and succeeds
in every other case (so a missing merchant, date, or item list is never
fatal); in particular the empty and the all-blank input both yield
`EmptyInput`. -/
theorem C1_failure_exhaustiveness (dateOk : String → Bool) (text : String) :
    (processReceipt dateOk text = .failure .emptyInput ↔ jsTrim text = "") ∧
    (processReceipt dateOk text = .failure .amountNotFound ↔
      (jsTrim text ≠ "" ∧ extractAmount text = none)) ∧
    ((jsTrim text ≠ "" ∧ extractAmount text ≠ none) →
      ∃ d, processReceipt dateOk text = .success d) ∧
    processReceipt dateOk "" = .failure .emptyInput ∧
    processReceipt dateOk "   " = .failure .emptyInput := by
  have hblank1 : jsTrim "" = "" := rfl
  have hblank2 : jsTrim "   " = "" := by decide
  by_cases htrim : jsTrim text = ""
  · have hpr := processReceipt_empty dateOk htrim
    refine ⟨⟨fun _ => htrim, fun _ => hpr⟩, ?_, ?_,
      processReceipt_empty dateOk hblank1, processReceipt_empty dateOk hblank2⟩
    · rw [hpr]
      constructor
      · intro hcontra
        simp at hcontra
      · rintro ⟨hne, -⟩
        exact absurd htrim hne
    · rintro ⟨hne, -⟩
      exact absurd htrim hne
  · cases hamt : extractAmount text with
    | none =>
      have hpr := processReceipt_noAmount dateOk htrim hamt
      refine ⟨?_, ?_, ?_, processReceipt_empty dateOk hblank1, processReceipt_empty dateOk hblank2⟩
      · rw [hpr]
        constructor
        · intro hcontra
          simp at hcontra
        · intro h
          exact absurd h htrim
      · rw [hpr]
        simp [htrim]
      · rintro ⟨-, hne⟩
        exact absurd rfl hne
    | some amt =>
      have hz : amt ≠ 0 := (extractAmount_spec hamt).1
      have hpr := processReceipt_someAmount dateOk htrim hamt hz
      refine ⟨?_, ?_, ?_, processReceipt_empty dateOk hblank1, processReceipt_empty dateOk hblank2⟩
      · rw [hpr]
        constructor
        · intro hcontra
          simp at hcontra
        · intro h
          exact absurd h htrim
      · rw [hpr]
        constructor
        · intro hcontra
          simp at hcontra
        · rintro ⟨-, hn⟩
          simp at hn
      · intro _
        exact ⟨_, hpr⟩

/-- C2: every Success carries an amount that is positive and below the
100000 sanity bound, and its date is the extracted date when one was
recovered and the current date ("now") otherwise. -/
theorem C2_success_invariant (dateOk : String → Bool) (text : String)
    (d : SuccessData) (h : processReceipt dateOk text = .success d) :
    0 < d.amount ∧ d.amount < 100000 ∧
    d.date = (match (parseReceiptText dateOk text).date with
      | some s => ReceiptDate.extracted s
      | none => ReceiptDate.now) := by
  obtain ⟨-, amt, hamt, hz, rfl⟩ := processReceipt_success_eq h
  have hr := extractAmount_spec hamt
  exact ⟨hr.2.1, hr.2.2, rfl⟩

/-- Witness for C2 at the concrete input "Total: 50". -/
theorem C2_success_invariant_witness :
    0 < (50 : ℚ) ∧ (50 : ℚ) < 100000 ∧
    ReceiptDate.now = (match (parseReceiptText (fun _ => false) "Total: 50").date with
      | some s => ReceiptDate.extracted s
      | none => ReceiptDate.now) :=
  C2_success_invariant (fun _ => false) "Total: 50"
    ⟨50, "Others", "Receipt purchase", ReceiptDate.now, none, [], 40⟩
    (by with_unfolding_all decide)

/-- C3 counterexample: on "Subtotal: Rs.100\nTotal: Rs.120" the extractor
does NOT return 120 — the claim's predicted value is wrong at this
input. -/
theorem C3_counterexample :
    ¬(extractAmount "Subtotal: Rs.100\nTotal: Rs.120" = some 120) := by
  with_unfolding_all decide

/-- C3 amended: on "Subtotal: Rs.100\nTotal: Rs.120" the extractor
returns 100, because the labeled-total pattern has no word boundary: its
leftmost match starts at the substring "total" inside "Subtotal", so the
Subtotal line's value is the one picked. -/
theorem C3_amended :
    extractAmount "Subtotal: Rs.100\nTotal: Rs.120" = some 100 := by
  with_unfolding_all decide

set_option maxRecDepth 4000 in
/-- C7: on an input with two tier-2 matches and no tier-1 match, the code
accepts the value of the SECOND tier-2 match, not the first:
`matches[1] || matches[0]` indexes the match array of the global regex, so
with two or more matches the candidate is `matches[1]`, the second match.
On "₹100 ₹250" the accepted amount is 250, not 100. -/
theorem C7_code_behavior :
    extractAmount "₹100 ₹250" = some 250 ∧
    extractAmount "₹100 ₹250" ≠ some 100 := by
  constructor
  · with_unfolding_all decide
  · with_unfolding_all decide

/-! ## Categorizer lemmas -/

theorem findCategory_result (maps : List (String × List String)) (s : String) :
    findCategory maps s = "Others" ∨ findCategory maps s ∈ maps.map Prod.fst := by
  induction maps with
  | nil => exact Or.inl rfl
  | cons hd rest ih =>
    obtain ⟨c, kws⟩ := hd
    by_cases hc : kws.any (fun k => containsStr s (lowerS k)) = true
    · right
      rw [show findCategory ((c, kws) :: rest) s = c from by
        simp [findCategory, hc]]
      simp
    · rw [show findCategory ((c, kws) :: rest) s = findCategory rest s from by
        simp [findCategory, hc]]
      rcases ih with h | h
      · exact Or.inl h
      · exact Or.inr (by simp [h])

theorem findCategory_others_iff (maps : List (String × List String))
    (s : String) (hno : "Others" ∉ maps.map Prod.fst) :
    findCategory maps s = "Others" ↔
      ∀ p ∈ maps, ∀ k ∈ p.2, containsStr s (lowerS k) = false := by
  induction maps with
  | nil => simp [findCategory]
  | cons hd rest ih =>
    obtain ⟨c, kws⟩ := hd
    simp only [List.map_cons, List.mem_cons, not_or] at hno
    obtain ⟨hc, hrest⟩ := hno
    by_cases hany : kws.any (fun k => containsStr s (lowerS k)) = true
    · rw [show findCategory ((c, kws) :: rest) s = c from by
        simp [findCategory, hany]]
      constructor
      · intro he
        exact absurd he.symm hc
      · intro hall
        exfalso
        rw [List.any_eq_true] at hany
        obtain ⟨k, hk, hks⟩ := hany
        have := hall (c, kws) (by simp) k hk
        rw [this] at hks
        cases hks
    · rw [show findCategory ((c, kws) :: rest) s = findCategory rest s from by
        simp [findCategory, hany]]
      rw [ih hrest]
      rw [List.any_eq_true] at hany
      push_neg at hany
      constructor
      · intro hall p hp k hk
        rcases List.mem_cons.mp hp with hp | hp
        · subst hp
          simpa using hany k hk
        · exact hall p hp k hk
      · intro hall p hp k hk
        exact hall p (List.mem_cons_of_mem _ hp) k hk

/-- C4: the categorizer is total: for every merchant string and item list
it returns one value of the fixed enumeration, and it returns "Others"
exactly when no keyword of the table occurs as a substring of the
lowercased concatenation of merchant and items. -/
theorem C4_categorizer_total (merchant : String) (items : List String) :
    determineCategory merchant items ∈
      ["Food & Dining", "Transportation", "Shopping", "Healthcare",
       "Utilities", "Entertainment", "Others"] ∧
    (determineCategory merchant items = "Others" ↔
      ∀ p ∈ categoryMappings, ∀ k ∈ p.2,
        containsStr (lowerS (merchant ++ " " ++ joinSep " " items))
          (lowerS k) = false) := by
  constructor
  · rcases findCategory_result categoryMappings
      (lowerS (merchant ++ " " ++ joinSep " " items)) with h | h
    · show findCategory _ _ ∈ _
      rw [h]
      simp
    · show findCategory _ _ ∈ _
      rw [show categoryMappings.map Prod.fst =
        ["Food & Dining", "Transportation", "Shopping", "Healthcare",
         "Utilities", "Entertainment"] from rfl] at h
      simp only [List.mem_cons, List.not_mem_nil, or_false] at h ⊢
      tauto
  · exact findCategory_others_iff categoryMappings _ (by decide)

/-- Appending a block of pairs with one fixed category to the flattened
table commutes with the inner keyword loop. -/
theorem flatFind_append (c : String) (kws : List String)
    (rest : List (String × String)) (s : String) :
    (match ((kws.map fun k => (c, k)) ++ rest).find?
        (fun p => containsStr s (lowerS p.2)) with
     | some p => p.1
     | none => "Others") =
    if kws.any (fun k => containsStr s (lowerS k)) then c
    else
      (match rest.find? (fun p => containsStr s (lowerS p.2)) with
       | some p => p.1
       | none => "Others") := by
  induction kws with
  | nil => simp
  | cons k kt ih =>
    by_cases h : containsStr s (lowerS k) = true
    · rw [List.map_cons, List.cons_append,
        List.find?_cons_of_pos _ (by simpa using h)]
      simp [h]
    · rw [List.map_cons, List.cons_append,
        List.find?_cons_of_neg _ (by simpa using h)]
      rw [ih]
      simp [h]

theorem findCategory_eq_flat (maps : List (String × List String)) (s : String) :
    findCategory maps s =
      (match (catFlat maps).find? (fun p => containsStr s (lowerS p.2)) with
       | some p => p.1
       | none => "Others") := by
  induction maps with
  | nil => rfl
  | cons hd rest ih =>
    obtain ⟨c, kws⟩ := hd
    rw [show catFlat ((c, kws) :: rest) =
      (kws.map fun k => (c, k)) ++ catFlat rest from rfl]
    rw [flatFind_append]
    by_cases h : kws.any (fun k => containsStr s (lowerS k)) = true
    · simp [findCategory, h]
    · simp only [findCategory, h, if_false, Bool.false_eq_true]
      rw [← ih]

/-- C8: the categorizer's tie-break is the first `(category, keyword)`
pair reached in the fixed declaration order of the flattened table (outer
categories in declaration order, each keyword list in declaration order) —
`determineCategory` agrees with that first-match specification on every
input. -/
theorem C8_first_match_order (merchant : String) (items : List String) :
    determineCategory merchant items =
      firstMatchCategory (lowerS (merchant ++ " " ++ joinSep " " items)) :=
  findCategory_eq_flat categoryMappings _

/-! ## Success-record lemmas -/

theorem assembleSuccess_description (p : Parsed) (amt : ℚ) :
    (assembleSuccess p amt).description = buildDescription p.merchant p.items := rfl

theorem assembleSuccess_merchant (p : Parsed) (amt : ℚ) :
    (assembleSuccess p amt).merchant = p.merchant := rfl

theorem assembleSuccess_items (p : Parsed) (amt : ℚ) :
    (assembleSuccess p amt).items = p.items := rfl

theorem assembleSuccess_confidence (p : Parsed) (amt : ℚ) :
    (assembleSuccess p amt).confidence = calculateConfidence p := rfl

theorem string_append_empty (s : String) : s ++ "" = s :=
  string_data_inj (by rw [String.data_append]; exact List.append_nil s.data)

/-- C5: for every assembled extraction the confidence is the additive
40/30/20/10 allocation capped at 100; hence it is bounded by 0 and 100 and
equals 100 exactly when amount, merchant, and date are present and the
item list is non-empty. -/
theorem C5_confidence_formula (dateOk : String → Bool) (text : String) :
    calculateConfidence (parseReceiptText dateOk text) =
      min ((if (parseReceiptText dateOk text).amount.isSome then 40 else 0) +
           (if (parseReceiptText dateOk text).merchant.isSome then 30 else 0) +
           (if (parseReceiptText dateOk text).date.isSome then 20 else 0) +
           (if (parseReceiptText dateOk text).items ≠ [] then 10 else 0)) 100 ∧
    calculateConfidence (parseReceiptText dateOk text) ≤ 100 ∧
    (calculateConfidence (parseReceiptText dateOk text) = 100 ↔
      ((parseReceiptText dateOk text).amount.isSome = true ∧
       (parseReceiptText dateOk text).merchant.isSome = true ∧
       (parseReceiptText dateOk text).date.isSome = true ∧
       (parseReceiptText dateOk text).items ≠ [])) := by
  have hta : truthyQ (parseReceiptText dateOk text).amount =
      (parseReceiptText dateOk text).amount.isSome := by
    cases ha : (parseReceiptText dateOk text).amount with
    | none => rfl
    | some q =>
      have hq : q ≠ 0 :=
        (extractAmount_spec (show extractAmount text = some q from ha)).1
      simp [truthyQ, hq]
  have htm : truthyS (parseReceiptText dateOk text).merchant =
      (parseReceiptText dateOk text).merchant.isSome := by
    cases hm : (parseReceiptText dateOk text).merchant with
    | none => rfl
    | some m =>
      have hne : m ≠ "" :=
        (extractMerchant_spec
          (show extractMerchant (jsLines text) = some m from hm)).2
      simp [truthyS, hne]
  simp only [calculateConfidence, hta, htm]
  by_cases ha : (parseReceiptText dateOk text).amount.isSome <;>
  by_cases hm : (parseReceiptText dateOk text).merchant.isSome <;>
  by_cases hd : (parseReceiptText dateOk text).date.isSome <;>
  by_cases hi : (parseReceiptText dateOk text).items = [] <;>
    simp [ha, hm, hd, hi, List.length_pos]

set_option maxRecDepth 8000 in
/-- C6 counterexample: an input whose Success has no merchant but one item
gets the description " - abcdef", not the generic "Receipt purchase" the
claim promises for every merchant-less Success. -/
theorem C6_counterexample :
    processReceipt (fun _ => false) "₹120 abcdef" =
      .success ⟨120, "Others", " - abcdef", ReceiptDate.now, none,
        ["abcdef"], 50⟩ ∧
    (" - abcdef" : String) ≠ "Receipt purchase" := by
  constructor
  · with_unfolding_all decide
  · decide

/-- C6 amended: a Success's description is "Purchase at {merchant}" plus
the " - "-prefixed list of up to the first 3 items when merchant is
present; when merchant is absent it is the bare " - "-prefixed item list
if items exist, and the generic "Receipt purchase" only when merchant is
absent AND no items were extracted. -/
theorem C6_description_amended (dateOk : String → Bool) (text : String)
    (d : SuccessData) (h : processReceipt dateOk text = .success d) :
    (∀ m, d.merchant = some m →
      d.description = "Purchase at " ++ m ++
        (if d.items = [] then ""
         else " - " ++ joinSep ", " (d.items.take 3))) ∧
    (d.merchant = none → d.items ≠ [] →
      d.description = " - " ++ joinSep ", " (d.items.take 3)) ∧
    (d.merchant = none → d.items = [] → d.description = "Receipt purchase") := by
  obtain ⟨-, amt, hamt, hz, rfl⟩ := processReceipt_success_eq h
  simp only [assembleSuccess_description, assembleSuccess_merchant,
    assembleSuccess_items]
  refine ⟨?_, ?_, ?_⟩
  · intro m hm
    have hne : m ≠ "" :=
      (extractMerchant_spec
        (show extractMerchant (jsLines text) = some m from hm)).2
    have hb1 : ¬(("Purchase at " ++ m : String) = "") := by
      intro he
      obtain ⟨h1, -⟩ := (string_append_eq_empty_iff _ _).mp he
      exact absurd h1 (by decide)
    simp only [buildDescription, hm]
    rw [show truthyS (some m) = true from by simp [truthyS, hne]]
    simp only [if_true, Option.getD_some]
    by_cases hi : (parseReceiptText dateOk text).items = []
    · rw [if_neg (show ¬((parseReceiptText dateOk text).items.length > 0) from by
        rw [hi]; decide)]
      rw [if_neg hb1, hi, if_pos (show ([] : List String) = [] from rfl),
        string_append_empty]
    · rw [if_pos (show (parseReceiptText dateOk text).items.length > 0 from
        List.length_pos.mpr hi)]
      rw [if_neg (show ¬(("Purchase at " ++ m ++ " - " ++
          joinSep ", " ((parseReceiptText dateOk text).items.take 3) : String) = "") from by
        intro he
        obtain ⟨h1, -⟩ := (string_append_eq_empty_iff _ _).mp he
        obtain ⟨h2, -⟩ := (string_append_eq_empty_iff _ _).mp h1
        exact absurd h2 hb1)]
      rw [if_neg hi, String.append_assoc]
  · intro hm hi
    simp only [buildDescription, hm]
    rw [show truthyS (none : Option String) = false from rfl]
    rw [if_neg (show ¬(false = true) from by decide)]
    rw [if_pos (show (parseReceiptText dateOk text).items.length > 0 from
      List.length_pos.mpr hi)]
    rw [if_neg (show ¬((("" : String) ++ " - " ++
        joinSep ", " ((parseReceiptText dateOk text).items.take 3)) = "") from by
      intro he
      obtain ⟨h1, -⟩ := (string_append_eq_empty_iff _ _).mp he
      obtain ⟨-, h2⟩ := (string_append_eq_empty_iff _ _).mp h1
      exact absurd h2 (by decide))]
    rw [show (("" : String) ++ " - ") = " - " from rfl]
  · intro hm hi
    simp only [buildDescription, hm]
    rw [show truthyS (none : Option String) = false from rfl]
    rw [if_neg (show ¬(false = true) from by decide)]
    rw [hi]
    rw [if_neg (show ¬((([] : List String)).length > 0) from by decide)]
    rw [if_pos (show ("" : String) = "" from rfl)]

/-- Witness for the amended C6 at the concrete input "₹120 abcdef". -/
theorem C6_description_witness :
    (∀ m, (none : Option String) = some m →
      (" - abcdef" : String) = "Purchase at " ++ m ++
        (if (["abcdef"] : List String) = [] then ""
         else " - " ++ joinSep ", " ((["abcdef"] : List String).take 3))) ∧
    ((none : Option String) = none → (["abcdef"] : List String) ≠ [] →
      (" - abcdef" : String) =
        " - " ++ joinSep ", " ((["abcdef"] : List String).take 3)) ∧
    ((none : Option String) = none → (["abcdef"] : List String) = [] →
      (" - abcdef" : String) = "Receipt purchase") :=
  C6_description_amended (fun _ => false) "₹120 abcdef"
    ⟨120, "Others", " - abcdef", ReceiptDate.now, none, ["abcdef"], 50⟩
    (by with_unfolding_all decide)

/-- C9: every extracted item has at least 3 characters and contains no
digit, no whitespace, and none of "₹", ".", "-", "r", "R", "s", "S" — the
character class of the cleaning step removes the letters r and s wherever
they occur, not only inside the "Rs" currency code. -/
theorem C9_item_invariant (dateOk : String → Bool) (text : String)
    (item : String) (h : item ∈ (parseReceiptText dateOk text).items) :
    3 ≤ item.length ∧ ∀ c ∈ item.data,
      c.isDigit = false ∧ isJsSpace c = false ∧ c ≠ '₹' ∧ c ≠ '.' ∧
      c ≠ '-' ∧ c ≠ 'r' ∧ c ≠ 'R' ∧ c ≠ 's' ∧ c ≠ 'S' := by
  have h' : item ∈ extractItems (jsLines text) := h
  simp only [extractItems, List.mem_filterMap] at h'
  obtain ⟨line, -, heq⟩ := h'
  split at heq
  · split at heq
    next hlen =>
      obtain rfl := Option.some.inj heq
      refine ⟨by omega, ?_⟩
      intro c hc
      have hc' : c ∈ trimChars
          (line.data.filter fun c => !(isItemStripChar c)) := hc
      have hmem := mem_trimChars hc'
      have hstrip := (List.mem_filter.mp hmem).2
      have hfalse : isItemStripChar c = false := by simpa using hstrip
      simp only [isItemStripChar, Bool.or_eq_false_iff,
        beq_eq_false_iff_ne] at hfalse
      obtain ⟨⟨⟨⟨⟨⟨hdig, hsp⟩, hrup⟩, hlr⟩, hls⟩, hdot⟩, hdash⟩ := hfalse
      refine ⟨hdig, hsp, hrup, hdot, hdash, ?_, ?_, ?_, ?_⟩
      · exact fun e => hlr (by rw [e]; decide)
      · exact fun e => hlr (by rw [e]; decide)
      · exact fun e => hls (by rw [e]; decide)
      · exact fun e => hls (by rw [e]; decide)
    next => exact absurd heq (by simp)
  · exact absurd heq (by simp)

set_option maxRecDepth 8000 in
/-- Witness for C9 at the concrete input "₹120 abcdef" and its item
"abcdef". -/
theorem C9_item_invariant_witness :
    3 ≤ ("abcdef" : String).length ∧ ∀ c ∈ ("abcdef" : String).data,
      c.isDigit = false ∧ isJsSpace c = false ∧ c ≠ '₹' ∧ c ≠ '.' ∧
      c ≠ '-' ∧ c ≠ 'r' ∧ c ≠ 'R' ∧ c ≠ 's' ∧ c ≠ 'S' :=
  C9_item_invariant (fun _ => false) "₹120 abcdef" "abcdef"
    (by with_unfolding_all decide)

/-- C10: every Success has confidence at least 40, and its confidence lies
in the set \x7b40, 50, 60, 70, 80, 90, 100\x7d: the amount is always present
in a Success, so its 40 points are always earned. -/
theorem C10_success_confidence (dateOk : String → Bool) (text : String)
    (d : SuccessData) (h : processReceipt dateOk text = .success d) :
    40 ≤ d.confidence ∧
    d.confidence ∈ ([40, 50, 60, 70, 80, 90, 100] : List ℕ) := by
  obtain ⟨-, amt, hamt, hz, rfl⟩ := processReceipt_success_eq h
  have ha : truthyQ (parseReceiptText dateOk text).amount = true := by
    rw [show (parseReceiptText dateOk text).amount = some amt from hamt]
    simp [truthyQ, hz]
  simp only [assembleSuccess_confidence, calculateConfidence, ha]
  by_cases hm : truthyS (parseReceiptText dateOk text).merchant <;>
  by_cases hd : (parseReceiptText dateOk text).date.isSome <;>
  by_cases hi : 0 < (parseReceiptText dateOk text).items.length <;>
    simp [hm, hd, hi]

/-- Witness for C10 at the concrete input "Total: 50". -/
theorem C10_success_confidence_witness :
    40 ≤ 40 ∧ (40 : ℕ) ∈ ([40, 50, 60, 70, 80, 90, 100] : List ℕ) :=
  C10_success_confidence (fun _ => false) "Total: 50"
    ⟨50, "Others", "Receipt purchase", ReceiptDate.now, none, [], 40⟩
    (by with_unfolding_all decide)

/-- Witness for C1 at the concrete input "Total: 50". -/
theorem C1_failure_exhaustiveness_witness :
    (processReceipt (fun _ => false) "Total: 50" = .failure .emptyInput ↔
      jsTrim "Total: 50" = "") ∧
    (processReceipt (fun _ => false) "Total: 50" = .failure .amountNotFound ↔
      (jsTrim "Total: 50" ≠ "" ∧ extractAmount "Total: 50" = none)) ∧
    ((jsTrim "Total: 50" ≠ "" ∧ extractAmount "Total: 50" ≠ none) →
      ∃ d, processReceipt (fun _ => false) "Total: 50" = .success d) ∧
    processReceipt (fun _ => false) "" = .failure .emptyInput ∧
    processReceipt (fun _ => false) "   " = .failure .emptyInput :=
  C1_failure_exhaustiveness (fun _ => false) "Total: 50"

/-- Witness for C4 at the concrete inputs "cafe" and `[]`. -/
theorem C4_categorizer_total_witness :
    determineCategory "cafe" [] ∈
      ["Food & Dining", "Transportation", "Shopping", "Healthcare",
       "Utilities", "Entertainment", "Others"] ∧
    (determineCategory "cafe" [] = "Others" ↔
      ∀ p ∈ categoryMappings, ∀ k ∈ p.2,
        containsStr (lowerS ("cafe" ++ " " ++ joinSep " " []))
          (lowerS k) = false) :=
  C4_categorizer_total "cafe" []

/-- Witness for C5 at the concrete input "Total: 50". -/
theorem C5_confidence_formula_witness :
    calculateConfidence (parseReceiptText (fun _ => false) "Total: 50") =
      min ((if (parseReceiptText (fun _ => false) "Total: 50").amount.isSome then 40 else 0) +
           (if (parseReceiptText (fun _ => false) "Total: 50").merchant.isSome then 30 else 0) +
           (if (parseReceiptText (fun _ => false) "Total: 50").date.isSome then 20 else 0) +
           (if (parseReceiptText (fun _ => false) "Total: 50").items ≠ [] then 10 else 0)) 100 ∧
    calculateConfidence (parseReceiptText (fun _ => false) "Total: 50") ≤ 100 ∧
    (calculateConfidence (parseReceiptText (fun _ => false) "Total: 50") = 100 ↔
      ((parseReceiptText (fun _ => false) "Total: 50").amount.isSome = true ∧
       (parseReceiptText (fun _ => false) "Total: 50").merchant.isSome = true ∧
       (parseReceiptText (fun _ => false) "Total: 50").date.isSome = true ∧
       (parseReceiptText (fun _ => false) "Total: 50").items ≠ [])) :=
  C5_confidence_formula (fun _ => false) "Total: 50"

/-- Witness for C8 at the concrete inputs "uber mall" and `[]`. -/
theorem C8_first_match_order_witness :
    determineCategory "uber mall" [] =
      firstMatchCategory (lowerS ("uber mall" ++ " " ++ joinSep " " [])) :=
  C8_first_match_order "uber mall" []

end Receipt
